import Mathlib

/-!
Verification of `ics_vector.hpp` from the stl-lite repository.

The header defines a generic growable sequence container `Vector<T>`
(fields `m_capacity`, `m_size`, `m_buffer`) together with a nested
bounds-checked `Iterator` holding a back-pointer to its container and an
index.  We give a shallow embedding of that code and prove the spec's
claims about it.

Modelling conventions:
* The heap buffer `T* m_buffer` is modelled as `Option (List T)`:
  `none` is the null pointer, `some b` an allocation whose slot `k`
  holds `b.getD k default`.  `new T[n]` default-constructs its `n`
  slots (the header requires `T` to be default constructible), so a
  fresh allocation is `List.replicate n default`.
* `size_t` values are `Nat`.  Where the source can genuinely wrap
  (iterator index arithmetic, `index + offset`), the wrap is modelled
  explicitly with `% 2 ^ 64` (LP64 model).  Sizes and capacities that
  are bounded by what `new T[...]` can actually allocate are kept as
  plain `Nat`.
* A thrown `VectorException` is modelled by its message string (the
  exception also carries the container pointer, which no claim uses).
* Calling `~T()` on a slot ends the value's liveness but does not
  change the bytes our model observes; destroyed slots simply fall
  outside `[0, m_size)`.
* Container identity (the `Vector<T>*` value held by an iterator) is
  modelled as a `Nat` tag in `Iterator.m_container`.
-/

namespace ICS

/-- The container `Vector<T>` (ics_vector.hpp lines 24-471): capacity,
size and the owned buffer (`none` = null pointer). -/
structure Vector (T : Type) where
  m_capacity : Nat
  m_size : Nat
  m_buffer : Option (List T)
deriving DecidableEq

/-- The nested `Vector<T>::Iterator` (lines 27-152): a container
identity and an index. -/
structure Iterator where
  m_container : Nat
  index : Nat
deriving DecidableEq

variable {T : Type} [Inhabited T]

/-- The slots of the buffer; the empty list when `m_buffer` is null. -/
def Vector.bufferList (v : Vector T) : List T := v.m_buffer.getD []

/-- The value stored in slot `k` (live only when `k < m_size`). -/
def Vector.elem (v : Vector T) (k : Nat) : T := v.bufferList.getD k default

/-- Default constructor `Vector()` (line 166). -/
def Vector.mkEmpty : Vector T := ⟨0, 0, none⟩

/-- Constructor `Vector(size_t capacity)` (lines 169-174): allocates
`new T[capacity]` when `capacity > 0`, otherwise keeps the null buffer. -/
def Vector.mkCap (capacity : Nat) : Vector T :=
  ⟨capacity, 0, if capacity > 0 then some (List.replicate capacity default) else none⟩

/-- Copy constructor (lines 177-185): same capacity and size, a fresh
buffer holding copies of the `m_size` live elements (remaining slots
default-constructed by `new T[m_capacity]`). -/
def Vector.copy (other : Vector T) : Vector T :=
  ⟨other.m_capacity, other.m_size,
    if other.m_capacity > 0 then
      some (other.bufferList.take other.m_size ++
        List.replicate (other.m_capacity - other.m_size) default)
    else none⟩

/-- Move constructor (lines 210-216), target side: steals the fields. -/
def Vector.moveNew (other : Vector T) : Vector T :=
  ⟨other.m_capacity, other.m_size, other.m_buffer⟩

/-- Move constructor / move assignment (lines 210-234), source side:
the moved-from object is left with capacity 0, size 0, null buffer. -/
def Vector.movedFrom (_other : Vector T) : Vector T := ⟨0, 0, none⟩

/-- `void resize(size_t new_capacity)` (lines 402-434): no-op when the
capacity is unchanged; otherwise allocate (null for capacity 0), move
the first `copy_size = min(m_size, new_capacity)` elements across, and
install the new fields.  Slots of the new buffer beyond `copy_size`
keep their default-constructed values. -/
def Vector.resize (v : Vector T) (new_capacity : Nat) : Vector T :=
  if new_capacity = v.m_capacity then v
  else
    let copy_size := if new_capacity < v.m_size then new_capacity else v.m_size
    let new_buffer : Option (List T) :=
      if new_capacity > 0 then
        some (v.bufferList.take copy_size ++
          List.replicate (new_capacity - copy_size) default)
      else none
    ⟨new_capacity, copy_size, new_buffer⟩

/-- `void push_back(const T&)` / `push_back(T&&)` (lines 340-359): grow
to `m_capacity == 0 ? 1 : m_capacity * 2` when `m_size >= m_capacity`,
then write slot `m_size` and increment `m_size`. -/
def Vector.push_back (v : Vector T) (value : T) : Vector T :=
  let v1 := if v.m_size ≥ v.m_capacity then
      v.resize (if v.m_capacity = 0 then 1 else v.m_capacity * 2)
    else v
  { v1 with m_buffer := v1.m_buffer.map (fun b => b.set v1.m_size value),
            m_size := v1.m_size + 1 }

/-- `void pop_back()` (lines 362-369): throws on an empty container,
otherwise decrements `m_size` and destroys the last value (destruction
does not change the slot our model observes). -/
def Vector.pop_back (v : Vector T) : Except String (Vector T) :=
  if v.m_size = 0 then .error "popping from empty"
  else .ok { v with m_size := v.m_size - 1 }

/-- The shifting loop of `erase` (lines 382-384):
`for (i = end_idx; i < m_size; ++i) m_buffer[start_idx + (i - end_idx)] = move(m_buffer[i])`,
run here over the explicit index list `List.range' end_idx (m_size - end_idx)`. -/
def eraseShiftLoop (start_idx end_idx : Nat) (b : List T) (idxs : List Nat) : List T :=
  idxs.foldl (fun acc i => acc.set (start_idx + (i - end_idx)) (acc.getD i default)) b

/-- `void erase(Iterator start, Iterator end)` (lines 372-392): returns
unchanged when `start == end` (iterator equality: same container and
same index); otherwise shifts the tail left and subtracts
`count = end_idx - start_idx` from `m_size`.  The trailing destructor
loop (lines 387-389) does not change observable slots.  `end_idx -
start_idx` is `size_t` subtraction; every claim only exercises
`start_idx ≤ end_idx ≤ m_size`, where it agrees with the truncated
`Nat` subtraction used here. -/
def Vector.erase (v : Vector T) (start stop : Iterator) : Vector T :=
  if start = stop then v
  else
    let start_idx := start.index
    let end_idx := stop.index
    let count := end_idx - start_idx
    { v with
      m_buffer := v.m_buffer.map (fun b =>
        eraseShiftLoop start_idx end_idx b (List.range' end_idx (v.m_size - end_idx))),
      m_size := v.m_size - count }

/-- `void swap_elements(Iterator lhs, Iterator rhs)` (lines 395-399):
exchanges the two slots; no bounds check in the source. -/
def Vector.swap_elements (v : Vector T) (lhs rhs : Iterator) : Vector T :=
  { v with m_buffer := v.m_buffer.map (fun b =>
      (b.set lhs.index (b.getD rhs.index default)).set rhs.index (b.getD lhs.index default)) }

/-- `void clear()` (lines 437-444): destroys the live values and sets
`m_size = 0`; capacity and buffer unchanged. -/
def Vector.clear (v : Vector T) : Vector T := { v with m_size := 0 }

/-- `T const* begin() const` (lines 249-252).  A `T const*` is modelled
as `Option Nat`: `none` is the null pointer, `some k` the address
`m_buffer + k`.  The source returns `m_buffer` when `m_size > 0` and
`nullptr` otherwise. -/
def Vector.beginConst (v : Vector T) : Option Nat :=
  if v.m_size > 0 then v.m_buffer.map (fun _ => 0) else none

/-- `T const* end() const` (lines 261-264): `m_buffer + m_size` when
`m_size > 0`, else the null pointer. -/
def Vector.endConst (v : Vector T) : Option Nat :=
  if v.m_size > 0 then v.m_buffer.map (fun _ => v.m_size) else none

/-- The stream-insertion friend `operator<<` (lines 474-480): for each
`i < m_size`, append the element's rendering followed by one space.
`f` models `os << element`. -/
def Vector.render (v : Vector T) (f : T → String) : String :=
  (List.range v.m_size).foldl (fun os i => os ++ f (v.bufferList.getD i default) ++ " ") ""

/-- Number of values of `size_t` in the LP64 model: `2 ^ 64`. -/
def size_t_card : Nat := 18446744073709551616

/-- `Iterator& operator++()` and `Iterator operator++(int)` (lines
42-60): throw when `index >= m_container->m_size`, else increment.
Result: (thrown message if any, iterator state after the call); both
increment forms have the same check and the same post-state. -/
def Iterator.inc (it : Iterator) (ownerSize : Nat) : Option String × Iterator :=
  if it.index ≥ ownerSize then (some "out of bounds", it)
  else (none, { it with index := it.index + 1 })

/-- `Iterator& operator--()` and `Iterator operator--(int)` (lines
63-81): throw when `index == 0`, else decrement. -/
def Iterator.dec (it : Iterator) : Option String × Iterator :=
  if it.index = 0 then (some "out of bounds", it)
  else (none, { it with index := it.index - 1 })

/-- `Iterator& operator+=(size_t offset)` (lines 84-90): throw when
`index + offset > m_container->m_size`, else `index += offset`.  Both
the compared sum and the stored sum are `size_t` arithmetic, hence the
explicit `% 2 ^ 64`. -/
def Iterator.plusEq (it : Iterator) (ownerSize offset : Nat) : Option String × Iterator :=
  if (it.index + offset) % size_t_card > ownerSize then (some "out of bounds", it)
  else (none, { it with index := (it.index + offset) % size_t_card })

/-- `Iterator& operator-=(size_t offset)` (lines 93-100): throw on
underflow (`offset > index`), else `index -= offset`. -/
def Iterator.minusEq (it : Iterator) (offset : Nat) : Option String × Iterator :=
  if offset > it.index then (some "out of bounds", it)
  else (none, { it with index := it.index - offset })

/-- `ptrdiff_t operator-(const Iterator&)` (lines 102-109): cross-container
check, then the signed index difference. -/
def Iterator.sub (it other : Iterator) : Except String Int :=
  if it.m_container ≠ other.m_container then
    .error "iterators point to different containers"
  else .ok ((it.index : Int) - (other.index : Int))

/-- Friend `operator+(const Iterator&, size_t)` (lines 492-499): build
the offset iterator (`size_t` addition), then throw if its index
exceeds the owner's size. -/
def iterAdd (iter : Iterator) (offset ownerSize : Nat) : Except String Iterator :=
  let result : Iterator := ⟨iter.m_container, (iter.index + offset) % size_t_card⟩
  if result.index > ownerSize then .error "out of bounds" else .ok result

/-- Friend `operator+(size_t, const Iterator&)` (lines 483-490): same
body with the operands swapped. -/
def addIter (offset : Nat) (iter : Iterator) (ownerSize : Nat) : Except String Iterator :=
  let result : Iterator := ⟨iter.m_container, (iter.index + offset) % size_t_card⟩
  if result.index > ownerSize then .error "out of bounds" else .ok result

/-- `resize` with the allocation outcome made explicit: `allocOk =
false` means `new T[new_capacity]` throws.  The error carries the
container state observable after the throw; in `resize` the `new`
happens before any member is written, so that state is the entry
state.  A resize to capacity 0 or to the current capacity performs no
allocation and cannot fail. -/
def Vector.resizeAlloc (v : Vector T) (new_capacity : Nat) (allocOk : Bool) :
    Except (String × Vector T) (Vector T) :=
  if new_capacity = v.m_capacity then .ok v
  else if new_capacity > 0 && !allocOk then .error ("bad_alloc", v)
  else .ok (v.resize new_capacity)

/-- `push_back` with the allocation outcome of its growth step made
explicit: a failed growth propagates before the element is written or
`m_size` touched. -/
def Vector.pushAlloc (v : Vector T) (value : T) (allocOk : Bool) :
    Except (String × Vector T) (Vector T) :=
  if v.m_size ≥ v.m_capacity then
    match v.resizeAlloc (if v.m_capacity = 0 then 1 else v.m_capacity * 2) allocOk with
    | .error e => .error e
    | .ok v1 => .ok { v1 with m_buffer := v1.m_buffer.map (fun b => b.set v1.m_size value),
                              m_size := v1.m_size + 1 }
  else .ok { v with m_buffer := v.m_buffer.map (fun b => b.set v.m_size value),
                    m_size := v.m_size + 1 }

/-- Copy constructor with the allocation outcome made explicit; on
failure no object is constructed, so the error carries no state. -/
def Vector.copyAlloc (other : Vector T) (allocOk : Bool) : Except String (Vector T) :=
  if other.m_capacity > 0 && !allocOk then .error "bad_alloc"
  else .ok (Vector.copy other)

/-- `Vector& operator=(const Vector& other)` (lines 188-207) for
distinct objects, with the allocation outcome made explicit.  The
source first does `delete[] m_buffer; m_buffer = nullptr;` and then
overwrites `m_capacity` and `m_size` from `other` BEFORE calling
`new T[m_capacity]`, so when that allocation throws, the target is
left at `⟨other.m_capacity, other.m_size, none⟩`, not at its entry
state. -/
def Vector.copyAssignAlloc (_v other : Vector T) (allocOk : Bool) :
    Except (String × Vector T) (Vector T) :=
  let st : Vector T := ⟨other.m_capacity, other.m_size, none⟩
  if other.m_capacity > 0 then
    if allocOk then
      .ok ⟨other.m_capacity, other.m_size,
        some (other.bufferList.take other.m_size ++
          List.replicate (other.m_capacity - other.m_size) default)⟩
    else .error ("bad_alloc", st)
  else .ok st

/-- The container states reachable through the public interface with
every cursor argument valid at the time of the call (the spec's cursor
invariant: positions lie in `[0, owner.length]`, and dereferenceable
positions for `swap_elements` lie in `[0, owner.length)`). -/
inductive Reachable : Vector T → Prop where
  | mk0 : Reachable Vector.mkEmpty
  | mkCap (c : Nat) : Reachable (Vector.mkCap c)
  | push {v : Vector T} (x : T) : Reachable v → Reachable (v.push_back x)
  | pop {v w : Vector T} : Reachable v → v.pop_back = .ok w → Reachable w
  | erase {v : Vector T} (c i j : Nat) : Reachable v → i ≤ j → j ≤ v.m_size →
      Reachable (v.erase ⟨c, i⟩ ⟨c, j⟩)
  | swap {v : Vector T} (a b : Iterator) : Reachable v →
      a.index < v.m_size → b.index < v.m_size → Reachable (v.swap_elements a b)
  | resize {v : Vector T} (n : Nat) : Reachable v → Reachable (v.resize n)
  | clear {v : Vector T} : Reachable v → Reachable v.clear
  | copy {v : Vector T} : Reachable v → Reachable (Vector.copy v)
  | moveNew {v : Vector T} : Reachable v → Reachable (Vector.moveNew v)
  | movedFrom {v : Vector T} : Reachable v → Reachable (Vector.movedFrom v)


/-! ### The length/capacity/storage invariant (claim C1) -/

/-- The invariant of claim C1: the size never exceeds the capacity, and
the buffer is non-null exactly when the capacity is positive. -/
def VecInv (v : Vector T) : Prop :=
  v.m_size ≤ v.m_capacity ∧ (v.m_buffer ≠ none ↔ 0 < v.m_capacity)

/-- Appending `k` elements (the values `0, 1, ..., k-1`) to a
default-constructed container, for claim C2's capacity progression. -/
def pushN : Nat → Vector Nat
  | 0 => Vector.mkEmpty
  | Nat.succ m => (pushN m).push_back m

theorem inv_mkEmpty : VecInv (Vector.mkEmpty : Vector T) := by
  simp [VecInv, Vector.mkEmpty]

theorem inv_mkCap (c : Nat) : VecInv (Vector.mkCap c : Vector T) := by
  simp only [VecInv, Vector.mkCap]
  split_ifs <;> simp_all

theorem inv_resize {v : Vector T} (h : VecInv v) (n : Nat) : VecInv (v.resize n) := by
  simp only [VecInv, Vector.resize] at h ⊢
  split_ifs with h1 h2 <;> simp_all <;> omega

/-- Effect of `push_back` when it must grow (`m_size == m_capacity`):
the capacity becomes `max(1, 2 * m_capacity)`, the size increments,
and the buffer is allocated. -/
theorem push_back_grow {v : Vector T} (h : v.m_size = v.m_capacity) (x : T) :
    (v.push_back x).m_capacity = max 1 (2 * v.m_capacity) ∧
    (v.push_back x).m_size = v.m_size + 1 ∧ (v.push_back x).m_buffer ≠ none := by
  simp only [Vector.push_back, Vector.resize]
  split_ifs with h1 h2 h3 h4 h5 <;> simp_all <;> omega

/-- Effect of `push_back` when there is spare capacity. -/
theorem push_back_nogrow {v : Vector T} (h : v.m_size < v.m_capacity) (x : T) :
    (v.push_back x).m_capacity = v.m_capacity ∧
    (v.push_back x).m_size = v.m_size + 1 ∧
    ((v.push_back x).m_buffer = none ↔ v.m_buffer = none) := by
  simp only [Vector.push_back]
  rw [if_neg (by omega)]
  refine ⟨rfl, rfl, by simp⟩

theorem inv_push {v : Vector T} (h : VecInv v) (x : T) : VecInv (v.push_back x) := by
  rcases Nat.lt_or_ge v.m_size v.m_capacity with hlt | hge
  · obtain ⟨h1, h2, h3⟩ := push_back_nogrow hlt x
    refine ⟨by omega, ?_⟩
    rw [h1]
    exact ⟨fun _ => by omega, fun _ hn => (h.2.mpr (by omega)) (h3.mp hn)⟩
  · have heq : v.m_size = v.m_capacity := le_antisymm h.1 hge
    obtain ⟨h1, h2, h3⟩ := push_back_grow heq x
    refine ⟨by omega, ⟨fun _ => by omega, fun _ => h3⟩⟩

theorem inv_pop {v w : Vector T} (h : VecInv v) (hw : v.pop_back = .ok w) : VecInv w := by
  simp only [Vector.pop_back] at hw
  split at hw
  · cases hw
  · cases hw
    exact ⟨by show v.m_size - 1 ≤ v.m_capacity; have := h.1; omega, h.2⟩

theorem inv_erase {v : Vector T} (h : VecInv v) (a b : Iterator) : VecInv (v.erase a b) := by
  simp only [VecInv, Vector.erase] at h ⊢
  split
  · exact h
  · refine ⟨by dsimp only; omega, ?_⟩
    simpa using h.2

theorem inv_swap {v : Vector T} (h : VecInv v) (a b : Iterator) :
    VecInv (v.swap_elements a b) := by
  refine ⟨h.1, ?_⟩
  simp only [Vector.swap_elements]
  simpa using h.2

theorem inv_clear {v : Vector T} (h : VecInv v) : VecInv v.clear :=
  ⟨Nat.zero_le _, h.2⟩

theorem inv_copy {v : Vector T} (h : VecInv v) : VecInv (Vector.copy v) := by
  simp only [VecInv, Vector.copy] at h ⊢
  split_ifs <;> simp_all

/-- Every reachable container state satisfies the invariant. -/
theorem reachable_inv {v : Vector T} (h : Reachable v) : VecInv v := by
  induction h with
  | mk0 => exact inv_mkEmpty
  | mkCap c => exact inv_mkCap c
  | push x _ ih => exact inv_push ih x
  | pop _ hw ih => exact inv_pop ih hw
  | erase c i j _ _ _ ih => exact inv_erase ih _ _
  | swap a b _ _ _ ih => exact inv_swap ih a b
  | resize n _ ih => exact inv_resize ih n
  | clear _ ih => exact inv_clear ih
  | copy _ ih => exact inv_copy ih
  | moveNew _ ih => exact ih
  | movedFrom _ ih => exact inv_mkEmpty

/-- C1: for every reachable container state (any sequence of create,
append, removeLast, removeRange with valid cursors, swapElements,
resize, clear, copy, move), `0 ≤ length ≤ capacity` holds and the
storage pointer is non-null iff the capacity is positive. -/
theorem C1_reachable_invariant {v : Vector T} (h : Reachable v) :
    0 ≤ v.m_size ∧ v.m_size ≤ v.m_capacity ∧
      (v.m_buffer ≠ none ↔ 0 < v.m_capacity) :=
  ⟨Nat.zero_le _, (reachable_inv h).1, (reachable_inv h).2⟩

/-- Witness for C1 at the concrete reachable state obtained by
appending 5 to a default-constructed container. -/
theorem C1_witness :
    0 ≤ ((Vector.mkEmpty : Vector Nat).push_back 5).m_size ∧
    ((Vector.mkEmpty : Vector Nat).push_back 5).m_size ≤
      ((Vector.mkEmpty : Vector Nat).push_back 5).m_capacity ∧
    (((Vector.mkEmpty : Vector Nat).push_back 5).m_buffer ≠ none ↔
      0 < ((Vector.mkEmpty : Vector Nat).push_back 5).m_capacity) :=
  C1_reachable_invariant (Reachable.push 5 Reachable.mk0)

/-! ### removeLast, cursor difference, cursor mutation (claims C6, C7, C9, C5) -/

/-- C6: `removeLast` (`pop_back`, lines 362-369) raises
`EmptyContainerError` ("popping from empty") iff `length == 0`;
otherwise it destroys the value at `length-1` (ending its liveness by
decrementing `m_size`), leaves the buffer slots and the capacity
untouched — in particular the capacity is never reduced. -/
theorem C6_pop_back (v : Vector T) :
    (v.pop_back = Except.error "popping from empty" ↔ v.m_size = 0) ∧
    (∀ w, v.pop_back = Except.ok w →
      w.m_size = v.m_size - 1 ∧ w.m_capacity = v.m_capacity ∧
      w.m_buffer = v.m_buffer ∧ ∀ k, w.elem k = v.elem k) := by
  by_cases h : v.m_size = 0
  · rw [Vector.pop_back, if_pos h]
    exact ⟨iff_of_true rfl h, fun w hw => by cases hw⟩
  · rw [Vector.pop_back, if_neg h]
    refine ⟨iff_of_false (by simp) h, fun w hw => ?_⟩
    cases hw
    exact ⟨rfl, rfl, rfl, fun k => rfl⟩

/-- Witness for C6 on the one-element container `⟨1, 1, [4]⟩`. -/
theorem C6_witness :
    ((⟨1, 1, some [4]⟩ : Vector Nat).pop_back = Except.error "popping from empty" ↔
      (⟨1, 1, some [4]⟩ : Vector Nat).m_size = 0) ∧
    (⟨1, 0, some [4]⟩ : Vector Nat).m_size = (⟨1, 1, some [4]⟩ : Vector Nat).m_size - 1 ∧
    (⟨1, 0, some [4]⟩ : Vector Nat).m_capacity = (⟨1, 1, some [4]⟩ : Vector Nat).m_capacity ∧
    (⟨1, 0, some [4]⟩ : Vector Nat).m_buffer = (⟨1, 1, some [4]⟩ : Vector Nat).m_buffer ∧
    ∀ k, (⟨1, 0, some [4]⟩ : Vector Nat).elem k = (⟨1, 1, some [4]⟩ : Vector Nat).elem k :=
  ⟨(C6_pop_back _).1, (C6_pop_back _).2 _ rfl⟩

/-- C7: the cursor difference (lines 102-109) raises
`CrossContainerError` ("iterators point to different containers") when
the two cursors reference different container instances, and otherwise
returns the signed distance `position - other.position`. -/
theorem C7_iterator_difference (a b : Iterator) :
    (a.m_container ≠ b.m_container →
      a.sub b = Except.error "iterators point to different containers") ∧
    (a.m_container = b.m_container →
      a.sub b = Except.ok ((a.index : Int) - (b.index : Int))) := by
  constructor
  · intro h; rw [Iterator.sub, if_pos h]
  · intro h; rw [Iterator.sub, if_neg (not_not_intro h)]

/-- Witness for C7: cursors on containers 0 and 1 fail; cursors on the
same container give the signed distance 3 - 1. -/
theorem C7_witness :
    Iterator.sub ⟨0, 3⟩ ⟨1, 1⟩ = Except.error "iterators point to different containers" ∧
    Iterator.sub ⟨0, 3⟩ ⟨0, 1⟩ = Except.ok (((3 : Nat) : Int) - ((1 : Nat) : Int)) :=
  ⟨(C7_iterator_difference _ _).1 (by decide), (C7_iterator_difference _ _).2 rfl⟩

/-- C9: whenever a cursor mutation (step forward, step backward,
advance by n, retreat by n) raises the out-of-range error, the
cursor's owner and position are unchanged: in the source the bounds
check precedes the index update in all four operators (lines 42-100),
so the post-throw cursor state equals the entry state. -/
theorem C9_check_before_mutation :
    (∀ (it : Iterator) (ownerSize : Nat),
      (it.inc ownerSize).1.isSome → (it.inc ownerSize).2 = it) ∧
    (∀ it : Iterator, it.dec.1.isSome → it.dec.2 = it) ∧
    (∀ (it : Iterator) (ownerSize n : Nat),
      (it.plusEq ownerSize n).1.isSome → (it.plusEq ownerSize n).2 = it) ∧
    (∀ (it : Iterator) (n : Nat), (it.minusEq n).1.isSome → (it.minusEq n).2 = it) := by
  refine ⟨fun it sz => ?_, fun it => ?_, fun it sz n => ?_, fun it n => ?_⟩
  · unfold Iterator.inc; split <;> simp
  · unfold Iterator.dec; split <;> simp
  · unfold Iterator.plusEq; split <;> simp
  · unfold Iterator.minusEq; split <;> simp

/-- Witness for C9: each of the four mutations, at a concrete cursor
where it throws, leaves the cursor at its entry state. -/
theorem C9_witness :
    (Iterator.inc ⟨0, 0⟩ 0).2 = ⟨0, 0⟩ ∧ (Iterator.dec ⟨0, 0⟩).2 = ⟨0, 0⟩ ∧
    (Iterator.plusEq ⟨0, 0⟩ 0 1).2 = ⟨0, 0⟩ ∧ (Iterator.minusEq ⟨0, 0⟩ 1).2 = ⟨0, 0⟩ :=
  ⟨C9_check_before_mutation.1 _ 0 (by decide),
   C9_check_before_mutation.2.1 _ (by decide),
   C9_check_before_mutation.2.2.1 _ 0 1 (by decide),
   C9_check_before_mutation.2.2.2 _ 1 (by decide)⟩

/-- C5 counterexample: the claim "advancing by `n` raises the error
exactly when `position + n` would exceed the owner's length, else
yields position `position + n`" fails under `size_t` wraparound.  Take
the end cursor (position 1) of a container of length 1 and
`n = 2^64 - 1`: mathematically `position + n = 2^64` exceeds the
length 1, but `operator+=` computes `index + offset` in `size_t`,
which wraps to 0, passes the bounds check, raises no error, and leaves
the cursor at position 0 ≠ `position + n`. -/
theorem C5_counterexample :
    (Iterator.plusEq ⟨0, 1⟩ 1 (size_t_card - 1)).1 = none ∧
    (Iterator.plusEq ⟨0, 1⟩ 1 (size_t_card - 1)).2 = ⟨0, 0⟩ ∧
    1 + (size_t_card - 1) > 1 ∧
    (Iterator.plusEq ⟨0, 1⟩ 1 (size_t_card - 1)).2.index ≠ 1 + (size_t_card - 1) := by
  decide

/-- C5 (amended): `advance(by n)` (`operator+=`) and `cursor + n` in
either operand order raise `OutOfRangeError` exactly when
`(position + n) mod 2^64` exceeds the owner's current length, and
otherwise yield the cursor at `(position + n) mod 2^64`; in
particular, whenever `position + n` does not overflow `size_t`, the
error is raised exactly when `position + n` exceeds the length. -/
theorem C5_advance (it : Iterator) (ownerSize n : Nat) :
    ((it.plusEq ownerSize n).1.isSome ↔ (it.index + n) % size_t_card > ownerSize) ∧
    ((it.index + n) % size_t_card ≤ ownerSize →
      it.plusEq ownerSize n = (none, ⟨it.m_container, (it.index + n) % size_t_card⟩)) ∧
    (iterAdd it n ownerSize =
      if (it.index + n) % size_t_card > ownerSize then Except.error "out of bounds"
      else Except.ok ⟨it.m_container, (it.index + n) % size_t_card⟩) ∧
    (addIter n it ownerSize = iterAdd it n ownerSize) ∧
    (it.index + n < size_t_card →
      ((it.plusEq ownerSize n).1.isSome ↔ it.index + n > ownerSize)) := by
  have h1 : (it.plusEq ownerSize n).1.isSome ↔ (it.index + n) % size_t_card > ownerSize := by
    unfold Iterator.plusEq; split <;> simp_all
  refine ⟨h1, ?_, rfl, rfl, ?_⟩
  · intro h
    rw [Iterator.plusEq, if_neg (Nat.not_lt.mpr h)]
  · intro h
    rw [h1, Nat.mod_eq_of_lt h]

/-- Witness for C5 (amended): a concrete in-bounds advance and a
concrete out-of-bounds advance without overflow. -/
theorem C5_witness :
    Iterator.plusEq ⟨0, 0⟩ 1 1 = (none, ⟨0, (0 + 1) % size_t_card⟩) ∧
    ((Iterator.plusEq ⟨0, 2⟩ 1 1).1.isSome ↔ 2 + 1 > 1) :=
  ⟨(C5_advance ⟨0, 0⟩ 1 1).2.1 (by decide),
   (C5_advance ⟨0, 2⟩ 1 1).2.2.2.2 (by decide)⟩

/-! ### Growth policy (claim C2) and const begin/end (claim C10) -/

/-- Capacity progression of `pushN`: the size is `k`, and for `k ≥ 1`
the capacity is the least power of two that is at least `k`
(`2^m` with `k ≤ 2^m < 2k`) — i.e. the progression `1, 2, 4, 8, ...`. -/
theorem pushN_spec (k : Nat) :
    (pushN k).m_size = k ∧
    ((k = 0 ∧ (pushN k).m_capacity = 0) ∨
     (1 ≤ k ∧ ∃ m, (pushN k).m_capacity = 2 ^ m ∧ k ≤ 2 ^ m ∧ 2 ^ m < 2 * k)) := by
  induction k with
  | zero => exact ⟨rfl, Or.inl ⟨rfl, rfl⟩⟩
  | succ p ih =>
    obtain ⟨hs, hc⟩ := ih
    rcases hc with ⟨hp0, _⟩ | ⟨hp1, m, hcap, hle, hlt⟩
    · subst hp0
      exact ⟨by decide, Or.inr ⟨by omega, 0, by decide, by decide, by decide⟩⟩
    · have hc1 : 1 ≤ 2 ^ m := Nat.one_le_two_pow
      by_cases hgrow : p = 2 ^ m
      · have h := push_back_grow
          (show (pushN p).m_size = (pushN p).m_capacity by rw [hs, hcap, hgrow]) p
        refine ⟨by rw [pushN, h.2.1, hs], Or.inr ⟨by omega, m + 1, ?_, ?_, ?_⟩⟩
        · rw [pushN, h.1, hcap, Nat.pow_succ]; omega
        · rw [Nat.pow_succ]; omega
        · rw [Nat.pow_succ]; omega
      · have hlt2 : (pushN p).m_size < (pushN p).m_capacity := by rw [hs, hcap]; omega
        have h := push_back_nogrow hlt2 p
        refine ⟨by rw [pushN, h.2.1, hs], Or.inr ⟨by omega, m, ?_, by omega, by omega⟩⟩
        rw [pushN, h.1, hcap]

/-- C2: whenever `push_back` must grow the container
(`length == capacity`), the new capacity is `max(1, 2 * old capacity)`;
the capacity is at least the length after every append; and starting
from the capacity-0 default container, appending `k ≥ 1` elements
yields size `k` and as capacity the least power of two `≥ k` — the
progression `1, 2, 4, 8, ...`. -/
theorem C2_growth_doubling :
    (∀ (v : Vector T) (x : T), v.m_size = v.m_capacity →
      (v.push_back x).m_capacity = max 1 (2 * v.m_capacity)) ∧
    (∀ (v : Vector T) (x : T), v.m_size ≤ v.m_capacity →
      (v.push_back x).m_size ≤ (v.push_back x).m_capacity) ∧
    (pushN 0).m_capacity = 0 ∧
    (∀ k, 1 ≤ k → (pushN k).m_size = k ∧
      ∃ m, (pushN k).m_capacity = 2 ^ m ∧ k ≤ 2 ^ m ∧ 2 ^ m < 2 * k) := by
  refine ⟨fun v x h => (push_back_grow h x).1, fun v x h => ?_, rfl, fun k hk => ?_⟩
  · rcases Nat.lt_or_ge v.m_size v.m_capacity with hlt | hge
    · have h2 := push_back_nogrow hlt x
      omega
    · have heq : v.m_size = v.m_capacity := le_antisymm h hge
      have h2 := push_back_grow heq x
      have h3 := h2.1
      have h4 := h2.2.1
      omega
  · obtain ⟨hs, hc⟩ := pushN_spec k
    rcases hc with ⟨h0, _⟩ | ⟨_, m, hm⟩
    · omega
    · exact ⟨hs, m, hm⟩

/-- Witness for C2: a concrete full container doubles its capacity on
append, and `pushN 3` has size 3 and capacity 4. -/
theorem C2_witness :
    ((⟨2, 2, some [4, 5]⟩ : Vector Nat).push_back 6).m_capacity =
      max 1 (2 * (⟨2, 2, some [4, 5]⟩ : Vector Nat).m_capacity) ∧
    ((pushN 3).m_size = 3 ∧ ∃ m, (pushN 3).m_capacity = 2 ^ m ∧ 3 ≤ 2 ^ m ∧ 2 ^ m < 2 * 3) :=
  ⟨C2_growth_doubling.1 _ 6 rfl, (@C2_growth_doubling Nat _).2.2.2 3 (by decide)⟩

/-- C10: through a const reference, `begin() const` and `end() const`
both return the null pointer when `length == 0` (and so compare
equal); when `length > 0` they return the buffer address (a pointer to
the first element, offset 0) and the buffer address plus `m_size` (one
past the last element). -/
theorem C10_const_begin_end {v : Vector T} (h : Reachable v) :
    (v.m_size = 0 → v.beginConst = none ∧ v.endConst = none ∧ v.beginConst = v.endConst) ∧
    (0 < v.m_size → v.beginConst = some 0 ∧ v.endConst = some v.m_size) := by
  constructor
  · intro h0
    rw [Vector.beginConst, Vector.endConst, if_neg (by omega), if_neg (by omega)]
    exact ⟨rfl, rfl, rfl⟩
  · intro hpos
    have hb : v.m_buffer ≠ none :=
      (reachable_inv h).2.mpr (by have := (reachable_inv h).1; omega)
    obtain ⟨b, hbe⟩ := Option.ne_none_iff_exists'.mp hb
    rw [Vector.beginConst, Vector.endConst, if_pos hpos, if_pos hpos, hbe]
    exact ⟨rfl, rfl⟩

/-- Witness for C10: the empty container gives two null pointers; a
one-element container gives offsets 0 and `m_size`. -/
theorem C10_witness :
    ((Vector.mkEmpty : Vector Nat).beginConst = none ∧
      (Vector.mkEmpty : Vector Nat).endConst = none ∧
      (Vector.mkEmpty : Vector Nat).beginConst = (Vector.mkEmpty : Vector Nat).endConst) ∧
    (((Vector.mkEmpty : Vector Nat).push_back 7).beginConst = some 0 ∧
      ((Vector.mkEmpty : Vector Nat).push_back 7).endConst =
        some ((Vector.mkEmpty : Vector Nat).push_back 7).m_size) :=
  ⟨(C10_const_begin_end Reachable.mk0).1 rfl,
   (C10_const_begin_end (Reachable.push 7 Reachable.mk0)).2 (by decide)⟩

/-! ### Allocation failure behaviour (claim C4) -/

theorem resizeAlloc_error {v w : Vector T} {n : Nat} {b : Bool} {e : String}
    (hw : v.resizeAlloc n b = .error (e, w)) : w = v ∧ e = "bad_alloc" := by
  unfold Vector.resizeAlloc at hw
  split_ifs at hw <;> cases hw <;> exact ⟨rfl, rfl⟩

theorem resizeAlloc_ok (v : Vector T) (n : Nat) : v.resizeAlloc n true = .ok (v.resize n) := by
  unfold Vector.resizeAlloc
  split_ifs with h1 h2
  · rw [Vector.resize, if_pos h1]
  · simp at h2
  · rfl

theorem resizeAlloc_fails (v : Vector T) (n : Nat) (h1 : n ≠ v.m_capacity) (h2 : 0 < n) :
    v.resizeAlloc n false = .error ("bad_alloc", v) := by
  unfold Vector.resizeAlloc
  rw [if_neg h1, if_pos (by simp [h2])]

theorem pushAlloc_error {v w : Vector T} {x : T} {b : Bool} {e : String}
    (hw : v.pushAlloc x b = .error (e, w)) : w = v ∧ e = "bad_alloc" := by
  unfold Vector.pushAlloc at hw
  split at hw
  · split at hw
    · rename_i p heq
      simp only [Except.error.injEq] at hw
      obtain ⟨e1, w1⟩ := p
      cases hw
      exact resizeAlloc_error heq
    · cases hw
  · cases hw

theorem pushAlloc_fails (v : Vector T) (x : T) (h : v.m_size = v.m_capacity) :
    v.pushAlloc x false = .error ("bad_alloc", v) := by
  unfold Vector.pushAlloc
  rw [if_pos (by omega)]
  have hne : (if v.m_capacity = 0 then 1 else v.m_capacity * 2) ≠ v.m_capacity := by
    split <;> omega
  have hpos : 0 < (if v.m_capacity = 0 then 1 else v.m_capacity * 2) := by
    split <;> omega
  rw [resizeAlloc_fails v _ hne hpos]

theorem pushAlloc_ok (v : Vector T) (x : T) : v.pushAlloc x true = .ok (v.push_back x) := by
  unfold Vector.pushAlloc Vector.push_back
  split_ifs with h1 h2 <;> first | rfl | (rw [resizeAlloc_ok]; try rfl)

theorem copyAlloc_fails (other : Vector T) (h : 0 < other.m_capacity) :
    Vector.copyAlloc other false = .error "bad_alloc" := by
  unfold Vector.copyAlloc
  rw [if_pos (by simp [h])]

theorem copyAssignAlloc_error {v other w : Vector T} {b : Bool} {e : String}
    (hw : Vector.copyAssignAlloc v other b = .error (e, w)) :
    w = ⟨other.m_capacity, other.m_size, none⟩ ∧ e = "bad_alloc" := by
  unfold Vector.copyAssignAlloc at hw
  split_ifs at hw <;> cases hw <;> exact ⟨rfl, rfl⟩

/-- C4 counterexample: the claim requires every allocating operation,
including copy assignment, to leave the target in its prior valid
state when allocation fails.  Copy assignment (lines 188-207) performs
`delete[] m_buffer; m_buffer = nullptr; m_capacity = other.m_capacity;
m_size = other.m_size;` BEFORE calling `new T[m_capacity]`.  Assigning
`other = ⟨2, 1, [5,0]⟩` onto `v = ⟨1, 1, [7]⟩` with the allocation
failing leaves the target at `⟨2, 1, null⟩`, which differs from its
prior state `⟨1, 1, [7]⟩` (it even violates the storage invariant). -/
theorem C4_counterexample :
    Vector.copyAssignAlloc (⟨1, 1, some [7]⟩ : Vector Nat) ⟨2, 1, some [5, 0]⟩ false =
      Except.error ("bad_alloc", ⟨2, 1, none⟩) ∧
    (⟨2, 1, none⟩ : Vector Nat) ≠ ⟨1, 1, some [7]⟩ := by
  exact ⟨rfl, by decide⟩

/-- C4 (amended): growth during append and explicit resize perform the
allocation before any mutation, so an allocation failure propagates
with the container left exactly in its prior state (and with `true`
allocation these fallible models agree with the plain operations);
copy construction propagates the failure with no object constructed;
copy assignment, however, releases the old buffer and overwrites
capacity and length before allocating, so on failure the target is
left at `⟨other.m_capacity, other.m_size, null⟩`, not its prior
state. -/
theorem C4_allocation_failure :
    (∀ (v w : Vector T) (n : Nat) (e : String),
      v.resizeAlloc n false = .error (e, w) → w = v) ∧
    (∀ (v : Vector T) (n : Nat), n ≠ v.m_capacity → 0 < n →
      v.resizeAlloc n false = .error ("bad_alloc", v)) ∧
    (∀ (v w : Vector T) (x : T) (e : String),
      v.pushAlloc x false = .error (e, w) → w = v) ∧
    (∀ (v : Vector T) (x : T), v.m_size = v.m_capacity →
      v.pushAlloc x false = .error ("bad_alloc", v)) ∧
    (∀ (v : Vector T) (n : Nat), v.resizeAlloc n true = .ok (v.resize n)) ∧
    (∀ (v : Vector T) (x : T), v.pushAlloc x true = .ok (v.push_back x)) ∧
    (∀ other : Vector T, 0 < other.m_capacity →
      Vector.copyAlloc other false = .error "bad_alloc") ∧
    (∀ (v other w : Vector T) (e : String),
      Vector.copyAssignAlloc v other false = .error (e, w) →
        w = ⟨other.m_capacity, other.m_size, none⟩) :=
  ⟨fun _ _ _ _ hw => (resizeAlloc_error hw).1,
   resizeAlloc_fails,
   fun _ _ _ _ hw => (pushAlloc_error hw).1,
   pushAlloc_fails,
   resizeAlloc_ok,
   pushAlloc_ok,
   copyAlloc_fails,
   fun _ _ _ _ hw => (copyAssignAlloc_error hw).1⟩

/-- Witness for C4 (amended) at concrete containers: a failed resize
and a failed growing append leave `⟨1, 1, [7]⟩` unchanged, a failed
copy construction propagates, and a failed copy assignment leaves the
target at the source's capacity and length with a null buffer. -/
theorem C4_witness :
    (⟨1, 1, some [7]⟩ : Vector Nat).resizeAlloc 2 false =
      Except.error ("bad_alloc", ⟨1, 1, some [7]⟩) ∧
    (⟨1, 1, some [7]⟩ : Vector Nat).pushAlloc 9 false =
      Except.error ("bad_alloc", ⟨1, 1, some [7]⟩) ∧
    Vector.copyAlloc (⟨2, 1, some [5, 0]⟩ : Vector Nat) false = Except.error "bad_alloc" ∧
    (⟨2, 1, none⟩ : Vector Nat) = ⟨(⟨2, 1, some [5, 0]⟩ : Vector Nat).m_capacity,
      (⟨2, 1, some [5, 0]⟩ : Vector Nat).m_size, none⟩ :=
  ⟨(@C4_allocation_failure Nat _).2.1 _ 2 (by decide) (by decide),
   (@C4_allocation_failure Nat _).2.2.2.1 _ 9 rfl,
   (@C4_allocation_failure Nat _).2.2.2.2.2.2.1 _ (by decide),
   (@C4_allocation_failure Nat _).2.2.2.2.2.2.2 ⟨1, 1, some [7]⟩ _ _ "bad_alloc" rfl⟩

/-! ### Textual rendering (claim C8) -/

theorem join_cons (a : String) (l : List String) :
    String.join (a :: l) = a ++ String.join l := by
  have ih : ∀ (l : List String) (acc : String),
      l.foldl (fun r s => r ++ s) acc = acc ++ String.join l := by
    intro l
    induction l with
    | nil => intro acc; simp [String.join, String.append_empty]
    | cons b l ihl =>
      intro acc
      show l.foldl _ (acc ++ b) = _
      rw [ihl (acc ++ b)]
      have hb : String.join (b :: l) = b ++ String.join l := by
        show l.foldl _ ("" ++ b) = _
        rw [ihl ("" ++ b), String.empty_append]
      rw [hb, String.append_assoc]
  show l.foldl (fun r s => r ++ s) ("" ++ a) = _
  rw [ih l ("" ++ a), String.empty_append]

theorem foldl_render (g : Nat → String) (l : List Nat) : ∀ acc : String,
    l.foldl (fun os i => os ++ g i ++ " ") acc =
      acc ++ String.join (l.map (fun i => g i ++ " ")) := by
  induction l with
  | nil => intro acc; simp [String.join, String.append_empty]
  | cons a l ih =>
    intro acc
    show l.foldl _ (acc ++ g a ++ " ") = _
    rw [ih (acc ++ g a ++ " "), List.map_cons, join_cons]
    simp [String.append_assoc]

theorem map_range_getD (d : T) (l : List T) : ∀ n, n ≤ l.length →
    (List.range n).map (fun i => l.getD i d) = l.take n := by
  intro n
  induction n with
  | zero => intro _; simp
  | succ m ih =>
    intro h
    rw [List.range_succ, List.map_append, ih (by omega), List.take_succ]
    simp [List.getD_eq_getElem?_getD, List.getElem?_eq_getElem (by omega : m < l.length)]

theorem C8_render (v : Vector T) (f : T → String) (hb : v.m_size ≤ v.bufferList.length) :
    v.render f = String.join ((v.bufferList.take v.m_size).map (fun x => f x ++ " ")) ∧
    (v.m_size = 0 → v.render f = "") := by
  have h1 : v.render f = String.join ((List.range v.m_size).map
      (fun i => f (v.bufferList.getD i default) ++ " ")) := by
    rw [Vector.render, foldl_render, String.empty_append]
  constructor
  · rw [h1, ← map_range_getD default v.bufferList v.m_size hb, List.map_map]
    rfl
  · intro h0
    rw [Vector.render, h0]
    rfl

theorem C8_witness :
    (⟨4, 3, some [1, 2, 3, 0]⟩ : Vector Nat).render (fun n => toString n) =
      String.join (((⟨4, 3, some [1, 2, 3, 0]⟩ : Vector Nat).bufferList.take 3).map
        (fun x => toString x ++ " ")) ∧
    (⟨4, 3, some [1, 2, 3, 0]⟩ : Vector Nat).render (fun n => toString n) = "1 2 3 " := by
  have h := (C8_render (⟨4, 3, some [1, 2, 3, 0]⟩ : Vector Nat) (fun n => toString n)
    (by decide)).1
  exact ⟨h, by decide⟩


/-! ### Range removal (claim C3) -/

theorem getD_set_self {l : List T} {i : Nat} (h : i < l.length) (x d : T) :
    (l.set i x).getD i d = x := by
  simp [List.getD_eq_getElem?_getD, List.getElem?_set_self', h]

theorem getD_set_ne {l : List T} {i j : Nat} (h : i ≠ j) (x d : T) :
    (l.set i x).getD j d = l.getD j d := by
  simp [List.getD_eq_getElem?_getD, List.getElem?_set_ne h]

/-- Pointwise characterisation of the shifting loop: running it over
indices `[j, j+c)` copies slot `j+t` into slot `s + (j-e) + t` for
`t < c` and leaves every other slot unchanged. -/
theorem eraseShiftLoop_getD (s e : Nat) (hse : s < e) :
    ∀ (c j : Nat) (b : List T) (p : Nat), e ≤ j → j + c ≤ b.length →
    (eraseShiftLoop s e b (List.range' j c)).getD p default =
      if s + (j - e) ≤ p ∧ p < s + (j - e) + c then b.getD (p + (e - s)) default
      else b.getD p default := by
  intro c
  induction c with
  | zero =>
    intro j b p hej hlen
    rw [if_neg (by omega)]
    rfl
  | succ cc ih =>
    intro j b p hej hlen
    rw [List.range'_succ]
    show (eraseShiftLoop s e (b.set (s + (j - e)) (b.getD j default))
      (List.range' (j + 1) cc)).getD p default = _
    rw [ih (j + 1) (b.set (s + (j - e)) (b.getD j default)) p (by omega)
      (by rw [List.length_set]; omega)]
    have hwlen : s + (j - e) < b.length := by omega
    by_cases hp : p = s + (j - e)
    · rw [if_neg (by omega), if_pos (by omega), hp, getD_set_self hwlen]
      rw [show s + (j - e) + (e - s) = j from by omega]
    · by_cases hp2 : s + (j + 1 - e) ≤ p ∧ p < s + (j + 1 - e) + cc
      · rw [if_pos hp2, if_pos (by omega),
          getD_set_ne (show s + (j - e) ≠ p + (e - s) from by omega)]
      · rw [if_neg hp2, if_neg (by omega),
          getD_set_ne (show s + (j - e) ≠ p from by omega)]

/-- C3: for a container of length `n` and cursor positions
`i ≤ j ≤ n` on that container, `removeRange` over `[i, j)` yields
length `n - (j-i)`; every element at index `k < i` is unchanged, every
element at `k ≥ i` after the removal equals the pre-removal element at
`k + (j-i)`, and `i == j` is a no-op. -/
theorem C3_erase_range (v : Vector T) (c i j : Nat) (h1 : i ≤ j) (h2 : j ≤ v.m_size)
    (hb : v.m_size ≤ v.bufferList.length) :
    (v.erase ⟨c, i⟩ ⟨c, j⟩).m_size = v.m_size - (j - i) ∧
    (∀ k, k < i → (v.erase ⟨c, i⟩ ⟨c, j⟩).elem k = v.elem k) ∧
    (∀ k, i ≤ k → k < v.m_size - (j - i) →
      (v.erase ⟨c, i⟩ ⟨c, j⟩).elem k = v.elem (k + (j - i))) ∧
    v.erase ⟨c, i⟩ ⟨c, i⟩ = v := by
  have hnoop : v.erase ⟨c, i⟩ ⟨c, i⟩ = v := by rw [Vector.erase, if_pos rfl]
  by_cases hij : i = j
  · subst hij
    refine ⟨by rw [hnoop]; omega, fun k _ => by rw [hnoop], fun k _ _ => ?_, hnoop⟩
    rw [hnoop, Nat.sub_self, Nat.add_zero]
  · have hlt : i < j := by omega
    have hne : (⟨c, i⟩ : Iterator) ≠ ⟨c, j⟩ := by
      intro hcon
      injection hcon with hc hi
      omega
    rcases hbuf : v.m_buffer with _ | b
    · exfalso
      have hbl : v.bufferList = [] := by rw [Vector.bufferList, hbuf]; rfl
      rw [hbl] at hb
      simp at hb
      omega
    · have hblen : v.bufferList = b := by rw [Vector.bufferList, hbuf]; rfl
      have hsize : (v.erase ⟨c, i⟩ ⟨c, j⟩).m_size = v.m_size - (j - i) := by
        rw [Vector.erase, if_neg hne]
      have hres : (v.erase ⟨c, i⟩ ⟨c, j⟩).bufferList =
          eraseShiftLoop i j b (List.range' j (v.m_size - j)) := by
        rw [Vector.erase, if_neg hne, Vector.bufferList]
        rw [hbuf]
        rfl
      have hloop : ∀ p, (eraseShiftLoop i j b (List.range' j (v.m_size - j))).getD p default =
          if i + (j - j) ≤ p ∧ p < i + (j - j) + (v.m_size - j) then
            b.getD (p + (j - i)) default
          else b.getD p default :=
        fun p => eraseShiftLoop_getD i j hlt (v.m_size - j) j b p (le_refl j)
          (by rw [← hblen]; omega)
      refine ⟨hsize, fun k hk => ?_, fun k hk1 hk2 => ?_, hnoop⟩
      · simp only [Vector.elem]
        rw [hres, hblen, hloop k, if_neg (by omega)]
      · simp only [Vector.elem]
        rw [hres, hblen, hloop k, if_pos (by omega)]


/-- Witness for C3 on the concrete container `[10, 20, 30]` (capacity
4), removing the range `[0, 2)`: one element remains, namely the old
element 2. -/
theorem C3_witness :
    ((⟨4, 3, some [10, 20, 30, 0]⟩ : Vector Nat).erase ⟨0, 0⟩ ⟨0, 2⟩).m_size = 3 - (2 - 0) ∧
    ((⟨4, 3, some [10, 20, 30, 0]⟩ : Vector Nat).erase ⟨0, 0⟩ ⟨0, 2⟩).elem 0 =
      (⟨4, 3, some [10, 20, 30, 0]⟩ : Vector Nat).elem (0 + (2 - 0)) ∧
    (⟨4, 3, some [10, 20, 30, 0]⟩ : Vector Nat).erase ⟨0, 0⟩ ⟨0, 0⟩ =
      ⟨4, 3, some [10, 20, 30, 0]⟩ :=
  ⟨(C3_erase_range _ 0 0 2 (by decide) (by decide) (by decide)).1,
   (C3_erase_range _ 0 0 2 (by decide) (by decide) (by decide)).2.2.1 0 (by decide) (by decide),
   (C3_erase_range _ 0 0 2 (by decide) (by decide) (by decide)).2.2.2⟩

end ICS
